import Mathlib

/-!
Shallow embedding of the `cartridges` repository (files `units.py`,
`curves.py`, `cartridges.py`) over the real numbers, together with
theorems settling the specification's claims about it.
-/

noncomputable section

namespace Cartridges

/-! Unit-conversion constants, from `units.py`. -/

namespace units

def mm : ℝ := 0.001

def inch : ℝ := 0.0254

def ft : ℝ := 12 * inch

def ksi : ℝ := 6.89475908677537e6

def psi : ℝ := 6894.75729

def lb : ℝ := 0.453592

def oz : ℝ := lb / 16.0

def lbf : ℝ := 4.44822

def ozf : ℝ := lbf / 16.0

def grains : ℝ := 6.479891e-5

def grav : ℝ := 9.81

end units

/-- Sigmoid function from `curves.py`: `1 / (1 + exp(-alpha*(x - x_0)))`. -/
def sigmoid (x alpha x_0 : ℝ) : ℝ :=
  1 / (1 + Real.exp (-alpha * (x - x_0)))

/-- Cartridge parameter bundle: the fields set by `Cartridge.__init__`. -/
structure Cartridge where
  m_bullet : ℝ
  d_chamber : ℝ
  d_case : ℝ
  l_case : ℝ
  l_case_i : ℝ
  l_round : ℝ
  yield_case : ℝ
  uts_case : ℝ
  gamma_case : ℝ
  u_cw : ℝ
  p_peak : ℝ
  t_peak : ℝ
  alpha_s : ℝ
  gama : ℝ

/-- Chamber inside sectional area: `pi*pow(d_chamber,2.0)/4.0`. -/
def Cartridge.a_chamber (c : Cartridge) : ℝ := Real.pi * c.d_chamber ^ 2 / 4

/-- Case inside sectional area: `pi*pow(d_case,2)/4.0`. -/
def Cartridge.a_case (c : Cartridge) : ℝ := Real.pi * c.d_case ^ 2 / 4

/-- Bullet base sectional area: `pi*pow(d_chamber,2.0)` (no `/4` in the source). -/
def Cartridge.a_bullet (c : Cartridge) : ℝ := Real.pi * c.d_chamber ^ 2

/-- Case wall area: `pi*d_case*l_case_i`. -/
def Cartridge.a_cw (c : Cartridge) : ℝ := Real.pi * c.d_case * c.l_case_i

/-- Case powder volume: `a_case * l_case_i`. -/
def Cartridge.v_case (c : Cartridge) : ℝ := c.a_case * c.l_case_i

/-- Case wall thickness: `(d_chamber - d_case)/2.0`. -/
def Cartridge.t_case (c : Cartridge) : ℝ := (c.d_chamber - c.d_case) / 2

/-- Case yield pressure: `2.0 * yield_case * t_case / d_case`. -/
def Cartridge.p_yield (c : Cartridge) : ℝ := 2 * c.yield_case * c.t_case / c.d_case

/-- Case burst pressure: `2.0 * uts_case * t_case / d_case`. -/
def Cartridge.p_uts (c : Cartridge) : ℝ := 2 * c.uts_case * c.t_case / c.d_case

/-- The field values assigned by the base `Cartridge.__init__` (the `-1`
unset sentinels for the physical fields, brass material constants, and the
default combustion parameters). -/
def Cartridge.base : Cartridge where
  m_bullet := -1
  d_chamber := -1
  d_case := -1
  l_case := -1
  l_case_i := -1
  l_round := -1
  yield_case := 200e6
  uts_case := 550e6
  gamma_case := 97e9
  u_cw := 0.1
  p_peak := 55 * units.ksi
  t_peak := 5e-4
  alpha_s := 6.0 / 5e-4
  gama := 1.3

/-- The `CCCIMiniMag` preset (a standard .22lr round). -/
def CCCIMiniMag : Cartridge :=
  { Cartridge.base with
    m_bullet := 40 * units.grains
    d_chamber := 0.223 * units.inch
    d_case := 0.203 * units.inch
    l_case := 0.55 * units.inch
    l_case_i := 0.50 * units.inch
    l_round := 1.25 * units.inch
    p_peak := 55 * units.ksi
    t_peak := 5e-4
    alpha_s := 6.0 / 5e-4
    gama := 1.3 }

/-- The `C22_Al` preset: `CCCIMiniMag` with a lower peak pressure. -/
def C22_Al : Cartridge :=
  { CCCIMiniMag with
    p_peak := 40 * units.ksi
    t_peak := 5e-4
    alpha_s := 6.0 / 5e-4 }

/-- The `C9mm` preset (standard 9mm Luger). -/
def C9mm : Cartridge :=
  { Cartridge.base with
    m_bullet := 115 * units.grains
    d_chamber := 9.8 * units.mm
    d_case := 9.03 * units.mm
    l_case := 19.15 * units.mm
    l_case_i := 15.00 * units.mm
    l_round := 29.69 * units.mm
    p_peak := 55 * units.ksi
    t_peak := 1.5e-4
    alpha_s := 6.0 / 1.5e-4
    gama := 1.15 }

/-! The integrator `Cartridge.sim`. -/

/-- Integration step size `Ts = 1e-6`. -/
def Ts : ℝ := 1e-6

/-- Integration horizon `Tf = 3.0e-3`. -/
def Tf : ℝ := 3.0e-3

/-- Step count `N = int(Tf / Ts)`; the IEEE double quotient
`3.0e-3 / 1e-6` is exactly `3000.0`, so `N = 3000`. -/
def N : ℕ := 3000

/-- One simulation sample: bullet position, bullet velocity, chamber
pressure, bolt force (a column of the source's `X` array). -/
structure State where
  x : ℝ
  x_d : ℝ
  p : ℝ
  F : ℝ

/-- One iteration of the loop body of `Cartridge.sim`: from the state at
step `i`, compute the state written at step `i+1`. -/
def simStep (c : Cartridge) (friction : Bool) (l_barrel : ℝ) (i : ℕ)
    (s : State) : State :=
  let x := s.x
  let x_d := s.x_d
  let x_dd := s.p * c.a_case / c.m_bullet * 0.9
  let p_combust :=
    if x > l_barrel then 0 else c.p_peak * sigmoid ((i : ℝ) * Ts) c.alpha_s c.t_peak
  let p_k := p_combust * (c.v_case / (c.v_case + x * c.a_case)) ^ c.gama
  let F_friction :=
    if friction = false ∨ p_k < c.p_yield then 0
    else (p_k - c.p_yield) * c.a_cw * c.u_cw
  let F_case := p_k * c.a_chamber - F_friction
  ⟨x + x_d * Ts, x_d + x_dd * Ts, p_k, if F_case < 0 then 0 else F_case⟩

/-- The state columns of `X`: `X` starts as `np.zeros([4,N])` and the loop
writes column `i+1` from column `i`. -/
def traj (c : Cartridge) (friction : Bool) (l_barrel : ℝ) : ℕ → State
  | 0 => ⟨0, 0, 0, 0⟩
  | i + 1 => simStep c friction l_barrel i (traj c friction l_barrel i)

/-- The effective barrel length: `if not l_barrel: l_barrel = 18 * u.inch`.
`None` (the default) and the falsy float `0` are both replaced by 18 inches. -/
def simBarrel (l_barrel : Option ℝ) : ℝ :=
  match l_barrel with
  | none => 18 * units.inch
  | some v => if v = 0 then 18 * units.inch else v

/-- `Cartridge.sim`: returns `(t, X)` with `t i = i * Ts` for `i < N` and
`X` the trajectory columns. -/
def sim (c : Cartridge) (friction : Bool) (l_barrel : Option ℝ) :
    List ℝ × List State :=
  ((List.range N).map fun (i : ℕ) => (i : ℝ) * Ts,
   (List.range N).map fun i => traj c friction (simBarrel l_barrel) i)

/-- `Cartridge.sim` viewed as a fallible computation: the source performs
no validation of the bundle fields and contains no `raise`, so it always
returns its `(t, X)` pair. -/
def simChecked (c : Cartridge) (friction : Bool) (l_barrel : Option ℝ) :
    Except String (List ℝ × List State) :=
  .ok (sim c friction l_barrel)

/-! Projection lemmas for one integration step. -/

lemma simStep_x (c : Cartridge) (friction : Bool) (l_barrel : ℝ) (i : ℕ)
    (s : State) : (simStep c friction l_barrel i s).x = s.x + s.x_d * Ts := rfl

lemma simStep_x_d (c : Cartridge) (friction : Bool) (l_barrel : ℝ) (i : ℕ)
    (s : State) :
    (simStep c friction l_barrel i s).x_d =
      s.x_d + s.p * c.a_case / c.m_bullet * 0.9 * Ts := rfl

lemma simStep_p (c : Cartridge) (friction : Bool) (l_barrel : ℝ) (i : ℕ)
    (s : State) :
    (simStep c friction l_barrel i s).p =
      (if s.x > l_barrel then 0
       else c.p_peak * sigmoid ((i : ℝ) * Ts) c.alpha_s c.t_peak) *
        (c.v_case / (c.v_case + s.x * c.a_case)) ^ c.gama := rfl

lemma simStep_F (c : Cartridge) (friction : Bool) (l_barrel : ℝ) (i : ℕ)
    (s : State) :
    (simStep c friction l_barrel i s).F =
      (let p_k := (simStep c friction l_barrel i s).p
       let F_friction :=
         if friction = false ∨ p_k < c.p_yield then 0
         else (p_k - c.p_yield) * c.a_cw * c.u_cw
       if p_k * c.a_chamber - F_friction < 0 then 0
       else p_k * c.a_chamber - F_friction) := rfl

lemma traj_zero (c : Cartridge) (friction : Bool) (l_barrel : ℝ) :
    traj c friction l_barrel 0 = ⟨0, 0, 0, 0⟩ := rfl

lemma traj_succ (c : Cartridge) (friction : Bool) (l_barrel : ℝ) (i : ℕ) :
    traj c friction l_barrel (i + 1) =
      simStep c friction l_barrel i (traj c friction l_barrel i) := rfl

/-! Basic facts about the sigmoid. -/

lemma sigmoid_pos (x alpha x_0 : ℝ) : 0 < sigmoid x alpha x_0 := by
  unfold sigmoid
  positivity

lemma sigmoid_lt_one (x alpha x_0 : ℝ) : sigmoid x alpha x_0 < 1 := by
  unfold sigmoid
  rw [div_lt_one (by positivity)]
  exact lt_add_of_pos_right 1 (Real.exp_pos _)

lemma a_chamber_nonneg (c : Cartridge) : 0 ≤ c.a_chamber := by
  unfold Cartridge.a_chamber
  positivity

lemma clamp_nonneg (a b : ℝ) : (0 : ℝ) ≤ if a - b < 0 then 0 else a - b := by
  split
  · exact le_refl (0 : ℝ)
  · next h => exact le_of_not_lt h

set_option maxRecDepth 4000 in
/-- The force written at step `i+1`, spelled out: friction term, net force,
and clamping, exactly as the loop computes them. -/
lemma traj_F_eq (c : Cartridge) (friction : Bool) (l_barrel : ℝ) (i : ℕ) :
    (traj c friction l_barrel (i + 1)).F =
      if (traj c friction l_barrel (i + 1)).p * c.a_chamber -
          (if friction = false ∨ (traj c friction l_barrel (i + 1)).p < c.p_yield then 0
           else ((traj c friction l_barrel (i + 1)).p - c.p_yield) * c.a_cw * c.u_cw) < 0
      then 0
      else (traj c friction l_barrel (i + 1)).p * c.a_chamber -
          (if friction = false ∨ (traj c friction l_barrel (i + 1)).p < c.p_yield then 0
           else ((traj c friction l_barrel (i + 1)).p - c.p_yield) * c.a_cw * c.u_cw) := by
  rw [traj_succ, simStep_F]

/-- C1: the chamber-pressure sample written at index `i+1` is
`p_peak * sigmoid(t_i, alpha_s, t_peak)` times the adiabatic expansion factor
`(v_case / (v_case + x_i * a_case))^gama`, with the combustion term replaced
by `0` when `x_i > l_barrel`, in which case the stored pressure is `0`. -/
theorem pressure_update_spec (c : Cartridge) (friction : Bool) (l_barrel : ℝ)
    (i : ℕ) :
    (traj c friction l_barrel (i + 1)).p =
      (if (traj c friction l_barrel i).x > l_barrel then 0
       else c.p_peak * sigmoid ((i : ℝ) * Ts) c.alpha_s c.t_peak) *
        (c.v_case / (c.v_case + (traj c friction l_barrel i).x * c.a_case)) ^ c.gama ∧
    ((traj c friction l_barrel i).x > l_barrel →
      (traj c friction l_barrel (i + 1)).p = 0) := by
  constructor
  · rw [traj_succ, simStep_p]
  · intro h
    rw [traj_succ, simStep_p, if_pos h, zero_mul]

/-- Witness for C1 at a concrete input where the bullet is past the barrel
mouth (barrel length `-1`, position `0`). -/
theorem pressure_update_witness :
    (traj Cartridge.base false (-1) 1).p = 0 :=
  (pressure_update_spec Cartridge.base false (-1) 0).2 (by norm_num [traj])

/-- C2: `sim` returns exactly 3000 time samples and 3000 state samples, the
time values are `i * 1e-6` starting at `0`, and the state sample at step 0
is all zeros. -/
theorem sim_shape_spec (c : Cartridge) (friction : Bool) (l_barrel : Option ℝ) :
    (sim c friction l_barrel).1.length = 3000 ∧
    (sim c friction l_barrel).2.length = 3000 ∧
    (sim c friction l_barrel).1 = (List.range 3000).map (fun (i : ℕ) => (i : ℝ) * 1e-6) ∧
    traj c friction (simBarrel l_barrel) 0 = ⟨0, 0, 0, 0⟩ := by
  refine ⟨?_, ?_, ?_, rfl⟩
  · unfold sim
    rw [List.length_map, List.length_range]
    rfl
  · unfold sim
    rw [List.length_map, List.length_range]
    rfl
  · unfold sim
    norm_num [N, Ts]

/-- C3: the Euler update: `x_{i+1} = x_i + v_i * Ts` and
`v_{i+1} = v_i + a * Ts` with `a = p_i * a_case / m_bullet * 0.9` computed
from the previous step's pressure sample. -/
theorem euler_update_spec (c : Cartridge) (friction : Bool) (l_barrel : ℝ)
    (i : ℕ) :
    (traj c friction l_barrel (i + 1)).x =
      (traj c friction l_barrel i).x + (traj c friction l_barrel i).x_d * Ts ∧
    (traj c friction l_barrel (i + 1)).x_d =
      (traj c friction l_barrel i).x_d +
        (traj c friction l_barrel i).p * c.a_case / c.m_bullet * 0.9 * Ts :=
  ⟨rfl, rfl⟩

/-- C4: the case/bolt force sample is nonnegative at every index, for every
bundle, barrel length and friction flag. -/
theorem force_nonneg_spec (c : Cartridge) (friction : Bool) (l_barrel : ℝ)
    (j : ℕ) : 0 ≤ (traj c friction l_barrel j).F := by
  cases j with
  | zero => exact le_refl 0
  | succ n =>
    rw [traj_F_eq]
    exact clamp_nonneg _ _

/-- C5: with `friction = false` the friction force is identically 0, so
every written force sample is the clamp of `p * a_chamber`; whenever the
pressure sample is nonnegative the clamp does not trigger and
`F = p * a_chamber` exactly. -/
theorem no_friction_spec (c : Cartridge) (l_barrel : ℝ) :
    (∀ i : ℕ,
      (traj c false l_barrel (i + 1)).F =
        if (traj c false l_barrel (i + 1)).p * c.a_chamber < 0 then 0
        else (traj c false l_barrel (i + 1)).p * c.a_chamber) ∧
    (∀ j : ℕ, 0 ≤ (traj c false l_barrel j).p →
      (traj c false l_barrel j).F = (traj c false l_barrel j).p * c.a_chamber) := by
  have hF : ∀ i : ℕ,
      (traj c false l_barrel (i + 1)).F =
        if (traj c false l_barrel (i + 1)).p * c.a_chamber < 0 then 0
        else (traj c false l_barrel (i + 1)).p * c.a_chamber := by
    intro i
    rw [traj_F_eq, if_pos (Or.inl rfl), sub_zero]
  refine ⟨hF, ?_⟩
  intro j hj
  cases j with
  | zero => simp [traj]
  | succ n =>
    rw [hF n, if_neg (not_lt.mpr (mul_nonneg hj (a_chamber_nonneg c)))]

/-- Witness for C5 at step 0 of the 9mm preset, where the pressure sample
is 0. -/
theorem no_friction_witness :
    (traj C9mm false 0.4572 0).F = (traj C9mm false 0.4572 0).p * C9mm.a_chamber :=
  (no_friction_spec C9mm 0.4572).2 0 (by norm_num [traj])

/-- C6: the yield pressure is `2 * yield_case * wall_thickness / d_case`,
and the force written at step `i+1` is `p_k * a_chamber` minus the friction
force (0 when the flag is off or `p_k < p_yield`, else
`(p_k - p_yield) * a_cw * u_cw`), clamped below at 0. -/
theorem friction_model_spec (c : Cartridge) (friction : Bool) (l_barrel : ℝ)
    (i : ℕ) :
    c.p_yield = 2 * c.yield_case * ((c.d_chamber - c.d_case) / 2) / c.d_case ∧
    (traj c friction l_barrel (i + 1)).F =
      (if (traj c friction l_barrel (i + 1)).p * c.a_chamber -
          (if friction = false ∨ (traj c friction l_barrel (i + 1)).p < c.p_yield then 0
           else ((traj c friction l_barrel (i + 1)).p - c.p_yield) * c.a_cw * c.u_cw) < 0
       then 0
       else (traj c friction l_barrel (i + 1)).p * c.a_chamber -
          (if friction = false ∨ (traj c friction l_barrel (i + 1)).p < c.p_yield then 0
           else ((traj c friction l_barrel (i + 1)).p - c.p_yield) * c.a_cw * c.u_cw)) :=
  ⟨rfl, rfl⟩

/-- C7: the sigmoid equals `1 / (1 + exp(-(steepness * (x - midpoint))))`,
is exactly `1/2` at the midpoint, is strictly increasing in `x` for positive
steepness, and lies strictly between 0 and 1. -/
theorem sigmoid_spec (x alpha x_0 : ℝ) :
    sigmoid x alpha x_0 = 1 / (1 + Real.exp (-(alpha * (x - x_0)))) ∧
    sigmoid x_0 alpha x_0 = 1 / 2 ∧
    (0 < alpha → ∀ y z : ℝ, y < z → sigmoid y alpha x_0 < sigmoid z alpha x_0) ∧
    0 < sigmoid x alpha x_0 ∧ sigmoid x alpha x_0 < 1 := by
  refine ⟨by rw [sigmoid, neg_mul], ?_, ?_, sigmoid_pos x alpha x_0,
    sigmoid_lt_one x alpha x_0⟩
  · rw [sigmoid, sub_self, mul_zero, Real.exp_zero]
    norm_num
  · intro halpha y z hyz
    unfold sigmoid
    have hez : Real.exp (-alpha * (z - x_0)) < Real.exp (-alpha * (y - x_0)) :=
      Real.exp_lt_exp.mpr (by nlinarith)
    exact one_div_lt_one_div_of_lt (by positivity) (by linarith)

/-- Witness for C7: strict monotonicity applied at steepness 1 on `0 < 1`. -/
theorem sigmoid_spec_witness : sigmoid 0 1 0 < sigmoid 1 1 0 :=
  (sigmoid_spec 0 1 0).2.2.1 (by norm_num) 0 1 (by norm_num)

/-- C10: calling `sim` with barrel length 0 is identical to calling it with
the default (`None`), both running with the 18-inch barrel `0.4572 m`. -/
theorem barrel_default_spec (c : Cartridge) (friction : Bool) :
    sim c friction (some 0) = sim c friction none ∧
    simBarrel (some 0) = 18 * units.inch ∧
    (18 * units.inch : ℝ) = 0.4572 := by
  refine ⟨?_, by simp [simBarrel], by norm_num [units.inch]⟩
  unfold sim
  rw [show simBarrel (some 0) = simBarrel none from by simp [simBarrel]]

/-! Positivity facts and step invariants used for the concrete scenarios. -/

lemma a_case_pos (c : Cartridge) (hd : 0 < c.d_case) : 0 < c.a_case :=
  div_pos (mul_pos Real.pi_pos (pow_pos hd 2)) (by norm_num)

lemma v_case_pos (c : Cartridge) (hd : 0 < c.d_case) (hl : 0 < c.l_case_i) :
    0 < c.v_case :=
  mul_pos (a_case_pos c hd) hl

lemma traj_x_one (c : Cartridge) (friction : Bool) (l_barrel : ℝ) :
    (traj c friction l_barrel 1).x = 0 := by
  rw [traj_succ, traj_zero, simStep_x]
  simp

lemma traj_x_d_one (c : Cartridge) (friction : Bool) (l_barrel : ℝ) :
    (traj c friction l_barrel 1).x_d = 0 := by
  rw [traj_succ, traj_zero, simStep_x_d]
  simp

lemma traj_x_two (c : Cartridge) (friction : Bool) (l_barrel : ℝ) :
    (traj c friction l_barrel 2).x = 0 := by
  rw [show (2 : ℕ) = 1 + 1 from rfl, traj_succ, simStep_x, traj_x_one,
    traj_x_d_one]
  simp

/-- The pressure written at step 1 is positive: the bullet starts inside the
barrel, the expansion factor is exactly 1, and the combustion term is a
positive multiple of a sigmoid value. -/
lemma traj_p_one_pos (c : Cartridge) (friction : Bool) (l_barrel : ℝ)
    (hvc : c.v_case ≠ 0) (hp : 0 < c.p_peak) (hlb : 0 ≤ l_barrel) :
    0 < (traj c friction l_barrel 1).p := by
  rw [traj_succ, traj_zero, simStep_p]
  dsimp only
  rw [if_neg (not_lt.mpr hlb), zero_mul, add_zero, div_self hvc,
    Real.one_rpow, mul_one]
  exact mul_pos hp (sigmoid_pos _ _ _)

/-- Invariant of the integration loop: position, velocity and pressure stay
nonnegative, and the pressure never exceeds `p_peak`. -/
lemma traj_bounds (c : Cartridge) (friction : Bool) (l_barrel : ℝ)
    (hm : 0 < c.m_bullet) (hd : 0 < c.d_case) (hl : 0 < c.l_case_i)
    (hp : 0 < c.p_peak) (hg : 0 ≤ c.gama) (i : ℕ) :
    0 ≤ (traj c friction l_barrel i).x ∧ 0 ≤ (traj c friction l_barrel i).x_d ∧
      0 ≤ (traj c friction l_barrel i).p ∧
      (traj c friction l_barrel i).p ≤ c.p_peak := by
  induction i with
  | zero =>
    rw [traj_zero]
    exact ⟨le_refl 0, le_refl 0, le_refl 0, hp.le⟩
  | succ n ih =>
    obtain ⟨hx, hv, hp0, hpk⟩ := ih
    have hTs : (0 : ℝ) ≤ Ts := by norm_num [Ts]
    have hac := a_case_pos c hd
    have hvc := v_case_pos c hd hl
    have hxa : 0 ≤ (traj c friction l_barrel n).x * c.a_case :=
      mul_nonneg hx hac.le
    have hden : 0 < c.v_case + (traj c friction l_barrel n).x * c.a_case :=
      add_pos_of_pos_of_nonneg hvc hxa
    have hbase0 :
        0 < c.v_case / (c.v_case + (traj c friction l_barrel n).x * c.a_case) :=
      div_pos hvc hden
    have hbase1 :
        c.v_case / (c.v_case + (traj c friction l_barrel n).x * c.a_case) ≤ 1 :=
      (div_le_one hden).mpr (le_add_of_nonneg_right hxa)
    have hfac0 :
        0 ≤ (c.v_case / (c.v_case + (traj c friction l_barrel n).x * c.a_case)) ^ c.gama :=
      (Real.rpow_pos_of_pos hbase0 _).le
    have hfac1 :
        (c.v_case / (c.v_case + (traj c friction l_barrel n).x * c.a_case)) ^ c.gama ≤ 1 :=
      Real.rpow_le_one hbase0.le hbase1 hg
    have hpc0 : 0 ≤
        (if (traj c friction l_barrel n).x > l_barrel then 0
         else c.p_peak * sigmoid ((n : ℝ) * Ts) c.alpha_s c.t_peak) := by
      split
      · exact le_refl 0
      · exact (mul_pos hp (sigmoid_pos _ _ _)).le
    have hpc1 :
        (if (traj c friction l_barrel n).x > l_barrel then 0
         else c.p_peak * sigmoid ((n : ℝ) * Ts) c.alpha_s c.t_peak) ≤ c.p_peak := by
      split
      · exact hp.le
      · exact mul_le_of_le_one_right hp.le (sigmoid_lt_one _ _ _).le
    refine ⟨?_, ?_, ?_, ?_⟩
    · rw [traj_succ, simStep_x]
      exact add_nonneg hx (mul_nonneg hv hTs)
    · rw [traj_succ, simStep_x_d]
      have hdd : 0 ≤ (traj c friction l_barrel n).p * c.a_case / c.m_bullet * 0.9 :=
        mul_nonneg (div_nonneg (mul_nonneg hp0 hac.le) hm.le) (by norm_num)
      exact add_nonneg hv (mul_nonneg hdd hTs)
    · rw [traj_succ, simStep_p]
      exact mul_nonneg hpc0 hfac0
    · rw [traj_succ, simStep_p]
      exact (mul_le_of_le_one_right hpc0 hfac1).trans hpc1

/-- Velocity is nondecreasing along the run. -/
lemma traj_x_d_mono (c : Cartridge) (friction : Bool) (l_barrel : ℝ)
    (hm : 0 < c.m_bullet) (hd : 0 < c.d_case) (hl : 0 < c.l_case_i)
    (hp : 0 < c.p_peak) (hg : 0 ≤ c.gama) :
    Monotone fun i => (traj c friction l_barrel i).x_d := by
  apply monotone_nat_of_le_succ
  intro n
  obtain ⟨hx, hv, hp0, hpk⟩ := traj_bounds c friction l_barrel hm hd hl hp hg n
  rw [traj_succ, simStep_x_d]
  have hac := a_case_pos c hd
  have hdd : 0 ≤ (traj c friction l_barrel n).p * c.a_case / c.m_bullet * 0.9 * Ts :=
    mul_nonneg (mul_nonneg (div_nonneg (mul_nonneg hp0 hac.le) hm.le) (by norm_num))
      (by norm_num [Ts])
  linarith

/-- Position is nondecreasing along the run. -/
lemma traj_x_mono (c : Cartridge) (friction : Bool) (l_barrel : ℝ)
    (hm : 0 < c.m_bullet) (hd : 0 < c.d_case) (hl : 0 < c.l_case_i)
    (hp : 0 < c.p_peak) (hg : 0 ≤ c.gama) :
    Monotone fun i => (traj c friction l_barrel i).x := by
  apply monotone_nat_of_le_succ
  intro n
  obtain ⟨hx, hv, hp0, hpk⟩ := traj_bounds c friction l_barrel hm hd hl hp hg n
  rw [traj_succ, simStep_x]
  have : 0 ≤ (traj c friction l_barrel n).x_d * Ts :=
    mul_nonneg hv (by norm_num [Ts])
  linarith

/-- The velocity written at step 2 is positive. -/
lemma traj_x_d_two_pos (c : Cartridge) (friction : Bool) (l_barrel : ℝ)
    (hm : 0 < c.m_bullet) (hd : 0 < c.d_case) (hl : 0 < c.l_case_i)
    (hp : 0 < c.p_peak) (hlb : 0 ≤ l_barrel) :
    0 < (traj c friction l_barrel 2).x_d := by
  have hp1 := traj_p_one_pos c friction l_barrel (v_case_pos c hd hl).ne' hp hlb
  rw [show (2 : ℕ) = 1 + 1 from rfl, traj_succ, simStep_x_d, traj_x_d_one]
  have hpos : 0 < (traj c friction l_barrel 1).p * c.a_case / c.m_bullet * 0.9 * Ts :=
    mul_pos (mul_pos (div_pos (mul_pos hp1 (a_case_pos c hd)) hm) (by norm_num))
      (by norm_num [Ts])
  linarith

/-- The position written at step 3 is positive. -/
lemma traj_x_three_pos (c : Cartridge) (friction : Bool) (l_barrel : ℝ)
    (hm : 0 < c.m_bullet) (hd : 0 < c.d_case) (hl : 0 < c.l_case_i)
    (hp : 0 < c.p_peak) (hlb : 0 ≤ l_barrel) :
    0 < (traj c friction l_barrel 3).x := by
  have hv2 := traj_x_d_two_pos c friction l_barrel hm hd hl hp hlb
  rw [show (3 : ℕ) = 2 + 1 from rfl, traj_succ, simStep_x, traj_x_two]
  have : 0 < (traj c friction l_barrel 2).x_d * Ts :=
    mul_pos hv2 (by norm_num [Ts])
  linarith

/-- From step 3 on, the position is strictly positive. -/
lemma traj_x_pos (c : Cartridge) (friction : Bool) (l_barrel : ℝ)
    (hm : 0 < c.m_bullet) (hd : 0 < c.d_case) (hl : 0 < c.l_case_i)
    (hp : 0 < c.p_peak) (hg : 0 ≤ c.gama) (hlb : 0 ≤ l_barrel)
    (n : ℕ) (hn : 3 ≤ n) : 0 < (traj c friction l_barrel n).x :=
  lt_of_lt_of_le (traj_x_three_pos c friction l_barrel hm hd hl hp hlb)
    (traj_x_mono c friction l_barrel hm hd hl hp hg hn)

lemma base_v_case_ne : Cartridge.base.v_case ≠ 0 := by
  have hπ := Real.pi_pos
  simp only [Cartridge.v_case, Cartridge.a_case, Cartridge.base]
  intro h
  nlinarith [h]

/-- C8 counterexample: on the bundle left at its `-1` sentinels, `sim`
returns successfully (no error of any kind is raised) and produces a full
3000-sample trajectory, so no validation error precedes the integration. -/
theorem unset_sentinel_counterexample :
    simChecked Cartridge.base false none = .ok (sim Cartridge.base false none) ∧
    (sim Cartridge.base false none).2.length = 3000 := by
  refine ⟨rfl, ?_⟩
  unfold sim
  rw [List.length_map, List.length_range]
  rfl

/-- C8 amended: the code performs no validation at construction or at
simulation entry: with `bullet_mass` still `-1`, `sim` runs all integration
steps and returns a full 3000-sample trajectory, and the pressure sample
written at step 1 is already positive (nonphysical stepping occurred). -/
theorem unset_sentinel_spec :
    Cartridge.base.m_bullet = -1 ∧
    simChecked Cartridge.base false none = .ok (sim Cartridge.base false none) ∧
    (sim Cartridge.base false none).2.length = 3000 ∧
    0 < (traj Cartridge.base false (simBarrel none) 1).p := by
  refine ⟨rfl, rfl, ?_, ?_⟩
  · unfold sim
    rw [List.length_map, List.length_range]
    rfl
  · exact traj_p_one_pos _ _ _ base_v_case_ne
      (by norm_num [Cartridge.base, units.ksi])
      (by norm_num [simBarrel, units.inch])

/-- C9: for the 9mm preset with an 18-inch barrel and friction modelling
on, the run yields 3000 samples, the final pressure is nonnegative, the
final position is strictly positive, and no pressure sample ever exceeds
`p_peak`. -/
theorem c9mm_scenario_spec :
    (sim C9mm true (some 0.4572)).2 =
      (List.range 3000).map (fun i => traj C9mm true 0.4572 i) ∧
    (sim C9mm true (some 0.4572)).2.length = 3000 ∧
    0 ≤ (traj C9mm true 0.4572 2999).p ∧
    0 < (traj C9mm true 0.4572 2999).x ∧
    ∀ j : ℕ, (traj C9mm true 0.4572 j).p ≤ C9mm.p_peak := by
  have hm : 0 < C9mm.m_bullet := by norm_num [C9mm, units.grains]
  have hd : 0 < C9mm.d_case := by norm_num [C9mm, units.mm]
  have hl : 0 < C9mm.l_case_i := by norm_num [C9mm, units.mm]
  have hp : 0 < C9mm.p_peak := by norm_num [C9mm, units.ksi]
  have hg : 0 ≤ C9mm.gama := by norm_num [C9mm]
  refine ⟨?_, ?_, ?_, ?_, ?_⟩
  · unfold sim
    rw [show simBarrel (some 0.4572) = 0.4572 from by norm_num [simBarrel]]
    norm_num [N]
  · unfold sim
    rw [List.length_map, List.length_range]
    rfl
  · exact (traj_bounds C9mm true 0.4572 hm hd hl hp hg 2999).2.2.1
  · exact traj_x_pos C9mm true 0.4572 hm hd hl hp hg (by norm_num) 2999
      (by norm_num)
  · intro j
    exact (traj_bounds C9mm true 0.4572 hm hd hl hp hg j).2.2.2

end Cartridges
